import Mathlib

/- Verification of the lookup-and-cache core of an HTTP redirect service
   (src/function_app.py).  The resolver `_get_redirect_url` memoizes durable
   table-store lookups in a module-level dict keyed by hostname, and the
   handler `redirect_handler` turns the resolved value into a 307 redirect
   or a 500 error.  Times are modelled as rationals, the store call of one
   invocation as an explicit outcome value, and the cache dict as a map from
   hostnames to (value, timestamp) pairs. -/

namespace FunctionApp

/-- Characters CPython urllib.parse accepts inside a URL scheme:
letters, digits, plus, minus and dot. -/
def isSchemeChar (c : Char) : Bool :=
  c.isAlpha || c.isDigit || c == '+' || c == '-' || c == '.'

/-- Index of the first occurrence of the character c, if any
(models Python str.find, with absence instead of -1). -/
def charIndex (c : Char) : List Char → Option Nat
  | [] => none
  | d :: rest => if d == c then some 0 else (charIndex c rest).map (· + 1)

/-- Modelled on CPython urllib.parse.urlsplit: split off the scheme.
The prefix before the first colon is a scheme when it is non-empty, starts
with a letter and consists of scheme characters only; then the (lowercased)
scheme and the remainder after the colon are returned, otherwise the scheme
is empty and the input is unchanged. -/
def splitScheme (l : List Char) : List Char × List Char :=
  match charIndex ':' l with
  | none => ([], l)
  | some i =>
    if i != 0 && (l.headD ' ').isAlpha && (l.take i).all isSchemeChar then
      ((l.take i).map Char.toLower, l.drop (i + 1))
    else ([], l)

/-- The characters that terminate the netloc component of a URL. -/
def isNetlocEnd (c : Char) : Bool := c == '/' || c == '?' || c == '#'

/-- Modelled on CPython urllib.parse.urlsplit: when the remainder after the
scheme starts with two slashes, the netloc runs up to the next '/', '?' or
'#'; otherwise it is empty. -/
def netlocOf (l : List Char) : List Char :=
  match l with
  | '/' :: '/' :: rest => rest.takeWhile (fun c => !isNetlocEnd c)
  | _ => []

/-- The scheme component of urlparse(url), empty when absent. -/
def urlScheme (url : String) : String :=
  String.mk (splitScheme url.toList).1

/-- The netloc component of urlparse(url), empty when absent. -/
def urlNetloc (url : String) : String :=
  String.mk (netlocOf (splitScheme url.toList).2)

/-- Python str.lower on the ASCII range, as applied to hostnames at line 64
of function_app.py. -/
def pyLower (s : String) : String :=
  String.mk (s.toList.map Char.toLower)

/-- Line 64 of function_app.py:
urlparse(req.url).netloc.lower().split(":")[0].
The first element of str.split(":") is the longest prefix without ':'. -/
def hostKeyOf (url : String) : String :=
  String.mk ((pyLower (urlNetloc url)).toList.takeWhile (fun c => !(c == ':')))

/-- The value kept in the cache for a hostname: the value of
entity.get("RedirectUrl"), where none models Python None (a confirmed
miss, or a record with no RedirectUrl field). -/
abbrev CacheValue := Option String

/-- The module-level dict _cache of line 14 of function_app.py, mapping a
hostname to the pair (redirect_url, timestamp). -/
def Cache := String → Option (CacheValue × ℚ)

/-- The empty dict, the state at process start. -/
def emptyCache : Cache := fun _ => none

/-- dict.get on the cache (line 33). -/
def cacheGet (c : Cache) (hostname : String) : Option (CacheValue × ℚ) :=
  c hostname

/-- The dict assignment _cache[hostname] = (value, now) of line 51,
overwriting any previous entry for that hostname. -/
def cachePut (c : Cache) (hostname : String) (v : CacheValue) (t : ℚ) : Cache :=
  fun h => if h = hostname then some (v, t) else c h

/-- Outcome of the get_entity call of lines 38 to 41 of function_app.py for
the one hostname of this invocation: a record whose RedirectUrl field holds
the given optional string, the explicit ResourceNotFoundError signal, or any
other exception (connectivity, auth, timeout, and so on). -/
inductive StoreResult where
  | found (redirectUrl : Option String)
  | notFound
  | error
deriving DecidableEq

/-- What one call to _get_redirect_url produces: the returned value, the
cache dict after the call, and the number of get_entity calls made. -/
structure ResolveOutcome where
  result : Option String
  cache : Cache
  storeCalls : Nat

/-- Lines 37 to 52 of function_app.py: the durable lookup and the cache
write that follows it.  ResourceNotFoundError sets redirect_url = None and
falls through to the cache write of line 51; any other exception returns
None at line 48 without touching the cache. -/
def lookupAndCache (store : StoreResult) (c : Cache) (now : ℚ) (hostname : String) : ResolveOutcome :=
  match store with
  | .found v => ⟨v, cachePut c hostname v now, 1⟩
  | .notFound => ⟨none, cachePut c hostname none now, 1⟩
  | .error => ⟨none, c, 1⟩

/-- _get_redirect_url, lines 31 to 52 of function_app.py.  now is the single
time.time() reading taken at line 32, before the cache check and before the
durable lookup.  A present cache tuple is always truthy in Python, so the
guard of line 34 is presence plus the age comparison. -/
def get_redirect_url (ttl : ℚ) (store : StoreResult) (c : Cache) (now : ℚ) (hostname : String) : ResolveOutcome :=
  match cacheGet c hostname with
  | some cached =>
    if now - cached.2 < ttl then ⟨cached.1, c, 0⟩
    else lookupAndCache store c now hostname
  | none => lookupAndCache store c now hostname

/-- Freshness of the cache entry for hostname at time now: an entry is
present and now - recordedAt < ttl, the condition of line 34. -/
def freshAt (ttl : ℚ) (c : Cache) (now : ℚ) (hostname : String) : Bool :=
  match cacheGet c hostname with
  | some cached => decide (now - cached.2 < ttl)
  | none => false

/-- Python truthiness of the str-or-None redirect_url tested at line 67:
false exactly for None and for the empty string. -/
def truthy : Option String → Bool
  | none => false
  | some s => !(s == "")

/-- The request data the handler reads: req.url, and the wildcard route
parameter req.route_params.get('route', ''), which the framework binds to
the request path without its leading slash. -/
structure HttpRequest where
  url : String
  route : String

/-- An HTTP response: status code, plain-text body, and the optional
Location header. -/
structure HttpResponse where
  status : Nat
  body : String
  location : Option String
deriving DecidableEq

/-- The 500 answer of lines 68 to 71 for a falsy redirect value. -/
def notFoundResponse : HttpResponse :=
  ⟨500, "Configuration error: redirect url not found.", none⟩

/-- The 500 answer of lines 80 to 83 for a redirect value that still has no
host component after normalization. -/
def invalidTargetResponse : HttpResponse :=
  ⟨500, "Configuration error: invalid redirect target.", none⟩

/-- Line 87 of function_app.py:
req.url.split('?', 1)[1] if '?' in req.url else ''. -/
def queryOf (url : String) : String :=
  if url.toList.contains '?' then
    String.mk ((url.toList.dropWhile (fun c => !(c == '?'))).drop 1)
  else ""

/-- str.rstrip('/'), line 90 of function_app.py. -/
def rstripSlash (s : String) : String :=
  String.mk ((s.toList.reverse.dropWhile (fun c => c == '/')).reverse)

/-- redirect_handler, lines 63 to 103 of function_app.py.  The test
`if not redirect_url` of line 67 is spelled out as its two falsy cases,
None and the empty string.  The scheme default, the netloc validity check
and the path and query composition follow lines 73 to 102. -/
def redirect_handler (ttl : ℚ) (store : StoreResult) (c : Cache) (now : ℚ) (req : HttpRequest) : HttpResponse × Cache :=
  let hostname := hostKeyOf req.url
  let out := get_redirect_url ttl store c now hostname
  match out.result with
  | none => (notFoundResponse, out.cache)
  | some u0 =>
    if u0 = "" then (notFoundResponse, out.cache)
    else
      let u1 := if urlScheme u0 = "" then "https://" ++ u0 else u0
      if urlNetloc u1 = "" then (invalidTargetResponse, out.cache)
      else
        let newUrl1 := rstripSlash u1
        let newUrl2 := if req.route = "" then newUrl1 else newUrl1 ++ "/" ++ req.route
        let newUrl3 :=
          if queryOf req.url = "" then newUrl2 else newUrl2 ++ "?" ++ queryOf req.url
        (⟨307, "", some newUrl3⟩, out.cache)

/-- The Location contract of section 4.3 of the specification, stated from
the specification's words rather than from the handler: prefix https:// when
the scheme is missing, strip trailing slashes, then append '/' + path when
the path is non-empty and '?' + query when the query is non-empty. -/
def specLocationContract (u path query : String) : String :=
  let u1 := if urlScheme u = "" then "https://" ++ u else u
  rstripSlash u1 ++ (if path = "" then "" else "/" ++ path)
    ++ (if query = "" then "" else "?" ++ query)

/-- Reading the entry just written for a hostname. -/
theorem cacheGet_cachePut (c : Cache) (hostname : String) (v : CacheValue) (t : ℚ) :
    cacheGet (cachePut c hostname v t) hostname = some (v, t) := by
  unfold cacheGet cachePut
  simp

/-- When the entry for hostname is missing or stale, _get_redirect_url
falls through to the durable lookup and cache write. -/
theorem get_redirect_url_stale (ttl : ℚ) (store : StoreResult) (c : Cache) (now : ℚ)
    (hostname : String) (h : freshAt ttl c now hostname = false) :
    get_redirect_url ttl store c now hostname = lookupAndCache store c now hostname := by
  unfold freshAt at h
  unfold get_redirect_url
  cases hc : cacheGet c hostname with
  | none => rfl
  | some cached =>
    rw [hc] at h
    simp only [decide_eq_false_iff_not] at h
    simp [h]

/-- When the entry for hostname is fresh, _get_redirect_url returns the
cached value, leaves the cache alone and makes no store call, for every
possible store outcome. -/
theorem get_redirect_url_fresh (ttl : ℚ) (store : StoreResult) (c : Cache) (now ts : ℚ)
    (hostname : String) (v : CacheValue)
    (hc : cacheGet c hostname = some (v, ts)) (hf : now - ts < ttl) :
    get_redirect_url ttl store c now hostname = ⟨v, c, 0⟩ := by
  unfold get_redirect_url
  rw [hc]
  simp [hf]

/-- A true freshness test exposes the fresh entry. -/
theorem freshAt_elim (ttl : ℚ) (c : Cache) (now : ℚ) (hostname : String)
    (h : freshAt ttl c now hostname = true) :
    ∃ v ts, cacheGet c hostname = some (v, ts) ∧ now - ts < ttl := by
  unfold freshAt at h
  cases hc : cacheGet c hostname with
  | none => rw [hc] at h; cases h
  | some cached =>
    rw [hc] at h
    simp only [decide_eq_true_eq] at h
    exact ⟨cached.1, cached.2, by simp [hc], h⟩

/-- Claim C1: a lookup that fails with a transient store error (any
exception other than ResourceNotFoundError) performs no cache write: the
cache map after the call is the cache before it, and in particular the
entry for the hostname, stale or not, is left in place. -/
theorem transient_error_preserves_cache (ttl : ℚ) (c : Cache) (now : ℚ) (hostname : String) :
    (get_redirect_url ttl StoreResult.error c now hostname).cache = c ∧
    cacheGet (get_redirect_url ttl StoreResult.error c now hostname).cache hostname =
      cacheGet c hostname := by
  have hmain : (get_redirect_url ttl StoreResult.error c now hostname).cache = c := by
    unfold get_redirect_url
    cases hc : cacheGet c hostname with
    | none => rfl
    | some cached =>
      dsimp only
      split
      · rfl
      · rfl
  exact ⟨hmain, by rw [hmain]⟩

/-- Claim C4: with a fresh cache entry (now - recordedAt < ttl) the resolver
makes zero durable-store calls and returns the cached outcome, the cached
URL and the cached negative alike, whatever the store would have answered. -/
theorem fresh_hit_uses_cache_only (ttl : ℚ) (store : StoreResult) (c : Cache) (now ts : ℚ)
    (hostname : String) (v : CacheValue)
    (hc : cacheGet c hostname = some (v, ts)) (hf : now - ts < ttl) :
    get_redirect_url ttl store c now hostname = ⟨v, c, 0⟩ :=
  get_redirect_url_fresh ttl store c now ts hostname v hc hf

/-- Witness for claim C4 at a concrete fresh entry forty-two seconds old. -/
theorem fresh_hit_uses_cache_only_check :
    get_redirect_url 300 StoreResult.error
        (cachePut emptyCache "a.example" (some "target.example") 0) 42 "a.example" =
      ⟨some "target.example", cachePut emptyCache "a.example" (some "target.example") 0, 0⟩ :=
  fresh_hit_uses_cache_only 300 StoreResult.error
    (cachePut emptyCache "a.example" (some "target.example") 0) 42 0 "a.example"
    (some "target.example") (by simp [cacheGet, cachePut, emptyCache]) (by norm_num)

/-- Claim C5: with no cache entry or a stale one, the resolver makes exactly
one durable-store call, and its result is a function of the store outcome
alone (the record's value, or None for the not-found signal and for the
transient error): the stale entry is never served. -/
theorem stale_entry_single_lookup (ttl : ℚ) (store : StoreResult) (c : Cache) (now : ℚ)
    (hostname : String) (h : freshAt ttl c now hostname = false) :
    (get_redirect_url ttl store c now hostname).storeCalls = 1 ∧
    (get_redirect_url ttl store c now hostname).result =
      (match store with
       | StoreResult.found v => v
       | StoreResult.notFound => none
       | StoreResult.error => none) := by
  rw [get_redirect_url_stale ttl store c now hostname h]
  cases store <;> simp [lookupAndCache]

/-- Witness for claim C5 at a concrete stale entry, overridden by the store. -/
theorem stale_entry_single_lookup_check :
    (get_redirect_url 300 (StoreResult.found (some "new.example"))
        (cachePut emptyCache "a.example" (some "stale.example") 0) 1000 "a.example").storeCalls = 1 ∧
    (get_redirect_url 300 (StoreResult.found (some "new.example"))
        (cachePut emptyCache "a.example" (some "stale.example") 0) 1000 "a.example").result =
      some "new.example" :=
  stale_entry_single_lookup 300 (StoreResult.found (some "new.example"))
    (cachePut emptyCache "a.example" (some "stale.example") 0) 1000 "a.example"
    (by norm_num [freshAt, cacheGet, cachePut])

/-- Claim C6: whenever the durable lookup completes, as a found record or as
the explicit not-found signal, the cache entry for the hostname is set to
that outcome with the current timestamp, overwriting whatever was there. -/
theorem completed_lookup_writes_cache (ttl : ℚ) (v : CacheValue) (c : Cache) (now : ℚ)
    (hostname : String) (h : freshAt ttl c now hostname = false) :
    cacheGet (get_redirect_url ttl (StoreResult.found v) c now hostname).cache hostname =
      some (v, now) ∧
    cacheGet (get_redirect_url ttl StoreResult.notFound c now hostname).cache hostname =
      some (none, now) := by
  rw [get_redirect_url_stale ttl (StoreResult.found v) c now hostname h,
    get_redirect_url_stale ttl StoreResult.notFound c now hostname h]
  exact ⟨cacheGet_cachePut c hostname v now, cacheGet_cachePut c hostname none now⟩

/-- Witness for claim C6: a stale positive entry is overwritten by both a
found record and the not-found signal. -/
theorem completed_lookup_writes_cache_check :
    cacheGet (get_redirect_url 300 (StoreResult.found (some "b.example"))
        (cachePut emptyCache "a.example" (some "old.example") 0) 400 "a.example").cache
        "a.example" = some (some "b.example", 400) ∧
    cacheGet (get_redirect_url 300 StoreResult.notFound
        (cachePut emptyCache "a.example" (some "old.example") 0) 400 "a.example").cache
        "a.example" = some (none, 400) :=
  completed_lookup_writes_cache 300 (some "b.example")
    (cachePut emptyCache "a.example" (some "old.example") 0) 400 "a.example"
    (by norm_num [freshAt, cacheGet, cachePut])

/-- Claim C10: the timestamp written with a completed lookup is the single
time.time() reading taken at the start of the resolution (line 32), the
same value the freshness test used, so the freshness window of the new
entry starts at resolution start: at any later time t the entry is fresh
exactly when t - now < ttl. -/
theorem recorded_at_resolution_start (ttl : ℚ) (v : CacheValue) (c : Cache) (now : ℚ)
    (hostname : String) (h : freshAt ttl c now hostname = false) :
    (cacheGet (get_redirect_url ttl (StoreResult.found v) c now hostname).cache hostname =
        some (v, now) ∧
      ∀ t : ℚ, freshAt ttl (get_redirect_url ttl (StoreResult.found v) c now hostname).cache
        t hostname = decide (t - now < ttl)) ∧
    (cacheGet (get_redirect_url ttl StoreResult.notFound c now hostname).cache hostname =
        some (none, now) ∧
      ∀ t : ℚ, freshAt ttl (get_redirect_url ttl StoreResult.notFound c now hostname).cache
        t hostname = decide (t - now < ttl)) := by
  rw [get_redirect_url_stale ttl (StoreResult.found v) c now hostname h,
    get_redirect_url_stale ttl StoreResult.notFound c now hostname h]
  refine ⟨⟨cacheGet_cachePut c hostname v now, fun t => ?_⟩,
    ⟨cacheGet_cachePut c hostname none now, fun t => ?_⟩⟩
  · unfold freshAt
    rw [show (lookupAndCache (StoreResult.found v) c now hostname).cache =
      cachePut c hostname v now from rfl, cacheGet_cachePut]
  · unfold freshAt
    rw [show (lookupAndCache StoreResult.notFound c now hostname).cache =
      cachePut c hostname none now from rfl, cacheGet_cachePut]

/-- Witness for claim C10 on an empty cache: the written stamp is the
resolution-start time 7, and the entry is stale at time 307 but fresh at 306. -/
theorem recorded_at_resolution_start_check :
    cacheGet (get_redirect_url 300 (StoreResult.found (some "b.example"))
        emptyCache 7 "a.example").cache "a.example" = some (some "b.example", 7) ∧
    freshAt 300 (get_redirect_url 300 (StoreResult.found (some "b.example"))
        emptyCache 7 "a.example").cache 306 "a.example" = true ∧
    freshAt 300 (get_redirect_url 300 (StoreResult.found (some "b.example"))
        emptyCache 7 "a.example").cache 307 "a.example" = false := by
  have h := recorded_at_resolution_start 300 (some "b.example") emptyCache 7 "a.example"
    (by norm_num [freshAt, cacheGet, emptyCache])
  refine ⟨h.1.1, ?_, ?_⟩
  · rw [h.1.2 306]; norm_num
  · rw [h.1.2 307]; norm_num

/-- Claim C3: a durable record whose RedirectUrl field is empty or absent is
treated exactly like the not-found signal: the response equals the response
a host with no record at all gets, namely the generic not-found 500, and
the falsy value is cached with the current timestamp as the remembered
negative outcome. -/
theorem empty_destination_like_notfound (ttl : ℚ) (v : CacheValue) (c : Cache) (now : ℚ)
    (req : HttpRequest) (hv : truthy v = false)
    (h : freshAt ttl c now (hostKeyOf req.url) = false) :
    (redirect_handler ttl (StoreResult.found v) c now req).1 =
      (redirect_handler ttl StoreResult.notFound c now req).1 ∧
    (redirect_handler ttl (StoreResult.found v) c now req).1 = notFoundResponse ∧
    cacheGet (redirect_handler ttl (StoreResult.found v) c now req).2 (hostKeyOf req.url) =
      some (v, now) := by
  simp only [redirect_handler]
  rw [get_redirect_url_stale ttl (StoreResult.found v) c now (hostKeyOf req.url) h,
    get_redirect_url_stale ttl StoreResult.notFound c now (hostKeyOf req.url) h]
  cases v with
  | none => simp [lookupAndCache, cacheGet_cachePut]
  | some s =>
    simp only [truthy, Bool.not_eq_false', beq_iff_eq] at hv
    subst hv
    simp [lookupAndCache, cacheGet_cachePut]

/-- Witness for claim C3 at a record carrying an empty RedirectUrl value. -/
theorem empty_destination_like_notfound_check :
    (redirect_handler 300 (StoreResult.found (some "")) emptyCache 5
        ⟨"https://c.example/p?q=1", "p"⟩).1 =
      (redirect_handler 300 StoreResult.notFound emptyCache 5
        ⟨"https://c.example/p?q=1", "p"⟩).1 ∧
    (redirect_handler 300 (StoreResult.found (some "")) emptyCache 5
        ⟨"https://c.example/p?q=1", "p"⟩).1 = notFoundResponse ∧
    cacheGet (redirect_handler 300 (StoreResult.found (some "")) emptyCache 5
        ⟨"https://c.example/p?q=1", "p"⟩).2 (hostKeyOf "https://c.example/p?q=1") =
      some (some "", 5) :=
  empty_destination_like_notfound 300 (some "") emptyCache 5
    ⟨"https://c.example/p?q=1", "p"⟩ (by decide) (by decide)

/-- Counterexample to claim C2 as stated: for the malformed stored value ""
(the claim's own example) the handler answers with the generic not-found
message, not with the invalid-target message, because the falsiness test of
line 67 fires before the URL validity check of lines 73 to 83. -/
theorem stored_empty_value_notfound_message :
    (redirect_handler 300 (StoreResult.found (some "")) emptyCache 0
        ⟨"https://old.example.com/", ""⟩).1 = notFoundResponse ∧
    ¬ notFoundResponse = invalidTargetResponse := by
  exact ⟨rfl, by decide⟩

/-- Claim C2 as amended: a stored redirect value that is non-empty but still
lacks a host component after normalization is answered with HTTP 500 and the
invalid-target message, distinct from the not-found message; the empty
string instead falls under the not-found message. -/
theorem nonempty_invalid_target_message (ttl : ℚ) (u : String) (c : Cache) (now : ℚ)
    (req : HttpRequest) (hu : ¬ u = "")
    (hn : urlNetloc (if urlScheme u = "" then "https://" ++ u else u) = "")
    (h : freshAt ttl c now (hostKeyOf req.url) = false) :
    (redirect_handler ttl (StoreResult.found (some u)) c now req).1 =
      invalidTargetResponse ∧
    ¬ invalidTargetResponse = notFoundResponse := by
  constructor
  · simp only [redirect_handler]
    rw [get_redirect_url_stale ttl (StoreResult.found (some u)) c now (hostKeyOf req.url) h]
    simp [lookupAndCache, hu, hn]
  · decide

/-- Witness for the amended claim C2 at the stored value "https://", which
is truthy but normalizes to a URL with an empty host. -/
theorem nonempty_invalid_target_message_check :
    (redirect_handler 300 (StoreResult.found (some "https://")) emptyCache 0
        ⟨"https://d.example/x", "x"⟩).1 = invalidTargetResponse ∧
    ¬ invalidTargetResponse = notFoundResponse :=
  nonempty_invalid_target_message 300 "https://" emptyCache 0
    ⟨"https://d.example/x", "x"⟩ (by decide) (by decide) (by decide)

/-- Claim C7: for a found, truthy redirect value whose normalized form has a
host, the handler answers 307 and the Location header follows the contract
of section 4.3 (https:// default scheme, trailing slashes stripped, path
appended when non-empty, query appended when non-empty); in particular the
round-trip example and the root-path example of the specification hold. -/
theorem redirect_builds_spec_location :
    (∀ (ttl : ℚ) (u : String) (c : Cache) (now : ℚ) (req : HttpRequest),
        freshAt ttl c now (hostKeyOf req.url) = false →
        ¬ u = "" →
        ¬ urlNetloc (if urlScheme u = "" then "https://" ++ u else u) = "" →
        (redirect_handler ttl (StoreResult.found (some u)) c now req).1 =
          ⟨307, "", some (specLocationContract u req.route (queryOf req.url))⟩) ∧
    (redirect_handler 300 (StoreResult.found (some "example.org")) emptyCache 0
        ⟨"https://old.example.com/foo/bar?x=1", "foo/bar"⟩).1 =
      ⟨307, "", some "https://example.org/foo/bar?x=1"⟩ ∧
    (redirect_handler 300 (StoreResult.found (some "example.org")) emptyCache 0
        ⟨"https://old.example.com/", ""⟩).1 =
      ⟨307, "", some "https://example.org"⟩ := by
  refine ⟨?_, by decide, by decide⟩
  intro ttl u c now req h hu hn
  simp only [redirect_handler]
  rw [get_redirect_url_stale ttl (StoreResult.found (some u)) c now (hostKeyOf req.url) h]
  simp only [lookupAndCache]
  rw [if_neg hu, if_neg hn]
  simp only [specLocationContract]
  by_cases hr : req.route = "" <;> by_cases hq : queryOf req.url = "" <;>
    simp [hr, hq, String.append_empty, String.append_assoc]

/-- Witness for claim C7: the general Location contract applied to a stored
value with mixed case and a trailing slash. -/
theorem redirect_builds_spec_location_check :
    (redirect_handler 300 (StoreResult.found (some "Example.ORG/app/")) emptyCache 0
        ⟨"https://f.example/a/b?q=2", "a/b"⟩).1 =
      ⟨307, "", some (specLocationContract "Example.ORG/app/" "a/b" "q=2")⟩ := by
  have h := redirect_builds_spec_location.1 300 "Example.ORG/app/" emptyCache 0
    ⟨"https://f.example/a/b?q=2", "a/b"⟩ (by decide) (by decide) (by decide)
  exact h.trans (by decide)

/-- Classification of every handler answer: the generic not-found 500, the
invalid-target 500, or a 307 redirect. -/
theorem handler_response_cases (ttl : ℚ) (store : StoreResult) (c : Cache) (now : ℚ)
    (req : HttpRequest) :
    (redirect_handler ttl store c now req).1 = notFoundResponse ∨
    (redirect_handler ttl store c now req).1 = invalidTargetResponse ∨
    (redirect_handler ttl store c now req).1.status = 307 := by
  simp only [redirect_handler]
  cases hres : (get_redirect_url ttl store c now (hostKeyOf req.url)).result with
  | none => exact Or.inl rfl
  | some u0 =>
    by_cases h0 : u0 = ""
    · exact Or.inl (by simp [h0])
    · by_cases h1 : urlNetloc (if urlScheme u0 = "" then "https://" ++ u0 else u0) = ""
      · exact Or.inr (Or.inl (by simp [h0, h1]))
      · exact Or.inr (Or.inr (by simp [h0, h1]))

/-- Claim C8: the response never distinguishes the not-found signal from a
transient store error: the two outcomes always produce identical responses,
on a cache miss both are the generic not-found 500, every 500 the handler
can emit carries one of exactly two distinct messages, and both messages
are reachable. -/
theorem notfound_transient_indistinguishable :
    (∀ (ttl : ℚ) (c : Cache) (now : ℚ) (req : HttpRequest),
        (redirect_handler ttl StoreResult.notFound c now req).1 =
          (redirect_handler ttl StoreResult.error c now req).1) ∧
    (∀ (ttl : ℚ) (c : Cache) (now : ℚ) (req : HttpRequest),
        freshAt ttl c now (hostKeyOf req.url) = false →
        (redirect_handler ttl StoreResult.notFound c now req).1 = notFoundResponse ∧
        (redirect_handler ttl StoreResult.error c now req).1 = notFoundResponse) ∧
    (∀ (ttl : ℚ) (store : StoreResult) (c : Cache) (now : ℚ) (req : HttpRequest),
        (redirect_handler ttl store c now req).1.status = 500 →
        (redirect_handler ttl store c now req).1 = notFoundResponse ∨
        (redirect_handler ttl store c now req).1 = invalidTargetResponse) ∧
    ¬ notFoundResponse = invalidTargetResponse ∧
    (redirect_handler 300 StoreResult.notFound emptyCache 0 ⟨"https://a.example/", ""⟩).1 =
      notFoundResponse ∧
    (redirect_handler 300 (StoreResult.found (some "https:///x")) emptyCache 0
        ⟨"https://a.example/", ""⟩).1 = invalidTargetResponse := by
  refine ⟨?_, ?_, ?_, by decide, by decide, by decide⟩
  · intro ttl c now req
    cases hf : freshAt ttl c now (hostKeyOf req.url) with
    | true =>
      obtain ⟨v, ts, hc, hlt⟩ := freshAt_elim ttl c now (hostKeyOf req.url) hf
      simp only [redirect_handler]
      rw [get_redirect_url_fresh ttl StoreResult.notFound c now ts (hostKeyOf req.url) v hc hlt,
        get_redirect_url_fresh ttl StoreResult.error c now ts (hostKeyOf req.url) v hc hlt]
    | false =>
      simp only [redirect_handler]
      rw [get_redirect_url_stale ttl StoreResult.notFound c now (hostKeyOf req.url) hf,
        get_redirect_url_stale ttl StoreResult.error c now (hostKeyOf req.url) hf]
      simp [lookupAndCache]
  · intro ttl c now req h
    constructor <;>
    · simp only [redirect_handler]
      rw [get_redirect_url_stale _ _ c now (hostKeyOf req.url) h]
      simp [lookupAndCache]
  · intro ttl store c now req h500
    rcases handler_response_cases ttl store c now req with hnf | hit | h307
    · exact Or.inl hnf
    · exact Or.inr hit
    · exact absurd (h307.symm.trans h500) (by decide)

/-- Witness for claim C8: on a concrete empty cache the not-found signal and
the transient error yield the same response, the generic not-found 500. -/
theorem notfound_transient_indistinguishable_check :
    (redirect_handler 300 StoreResult.notFound emptyCache 9 ⟨"https://e.example/q", "q"⟩).1 =
      (redirect_handler 300 StoreResult.error emptyCache 9 ⟨"https://e.example/q", "q"⟩).1 ∧
    (redirect_handler 300 StoreResult.error emptyCache 9 ⟨"https://e.example/q", "q"⟩).1 =
      notFoundResponse :=
  ⟨notfound_transient_indistinguishable.1 300 emptyCache 9 ⟨"https://e.example/q", "q"⟩,
   (notfound_transient_indistinguishable.2.1 300 emptyCache 9 ⟨"https://e.example/q", "q"⟩
      (by decide)).2⟩

/-- Char.ofNat round-trips on the lowercase ASCII letter range. -/
theorem toNat_ofNat_lower_range (m : Nat) (h1 : 97 ≤ m) (h2 : m ≤ 122) :
    (Char.ofNat m).toNat = m := by
  have hv : m.isValidChar := Or.inl (by omega)
  rw [Char.ofNat, dif_pos hv]
  simp [Char.toNat, Char.ofNatAux, UInt32.toNat, BitVec.toNat_ofNatLt]

/-- ASCII lowercasing never turns another character into a colon. -/
theorem toLower_ne_colon (c : Char) (h : ¬ c = ':') : ¬ Char.toLower c = ':' := by
  intro hl
  rw [Char.toLower] at hl
  by_cases hb : c.toNat ≥ 65 ∧ c.toNat ≤ 90
  · rw [if_pos hb] at hl
    have ht := congrArg Char.toNat hl
    rw [toNat_ofNat_lower_range (c.toNat + 32) (by omega) (by omega)] at ht
    have h58 : Char.toNat ':' = 58 := by decide
    omega
  · rw [if_neg hb] at hl
    exact h hl

/-- takeWhile walks through a prefix all of whose elements satisfy the
test. -/
theorem takeWhile_append_all {α : Type} (p : α → Bool) (A B : List α)
    (h : ∀ a ∈ A, p a = true) :
    (A ++ B).takeWhile p = A ++ B.takeWhile p := by
  induction A with
  | nil => simp
  | cons a A ih =>
    simp only [List.cons_append, List.takeWhile_cons]
    rw [h a (by simp)]
    simp only [if_true]
    rw [ih (fun x hx => h x (by simp [hx]))]

/-- Character list of a concatenation. -/
theorem str_toList_append (a b : String) : (a ++ b).toList = a.toList ++ b.toList := by
  cases a
  cases b
  rfl

/-- Core of the host-key computation of line 64: when the netloc of the
request URL is a host followed by an optional port suffix, and the host
itself contains no colon, the key is exactly the lowercased host. -/
theorem hostKey_of_netloc (url host ps : String)
    (hnet : urlNetloc url = host ++ ps)
    (hcol : ∀ ch ∈ host.toList, ¬ ch = ':')
    (hps : ps = "" ∨ ∃ p, ps = ":" ++ p) :
    hostKeyOf url = pyLower host := by
  unfold hostKeyOf
  rw [hnet]
  unfold pyLower
  have htl : (String.mk ((host ++ ps).toList.map Char.toLower)).toList =
      (host ++ ps).toList.map Char.toLower := rfl
  rw [htl, str_toList_append, List.map_append]
  have hall : ∀ a ∈ host.toList.map Char.toLower, (fun c => !(c == ':')) a = true := by
    intro a ha
    obtain ⟨ch, hch, rfl⟩ := List.mem_map.mp ha
    have hne := toLower_ne_colon ch (hcol ch hch)
    simp [hne]
  rw [takeWhile_append_all _ _ _ hall]
  rcases hps with hps | ⟨p, hps⟩
  · subst hps
    simp
  · subst hps
    have hcons : (":" ++ p).toList = ':' :: p.toList := by
      rw [str_toList_append]
      rfl
    rw [hcons]
    have hlc : Char.toLower ':' = ':' := by decide
    simp [List.takeWhile_cons, hlc]

/-- Claim C9: the cache and lookup key is derived deterministically from the
request URL's authority as the lowercased hostname with any port suffix
stripped, and two requests whose authorities carry the same effective host
(equal up to letter case, with any ports) share one key. -/
theorem hostkey_lowercase_portless :
    (∀ (url host ps : String),
        urlNetloc url = host ++ ps →
        (∀ ch ∈ host.toList, ¬ ch = ':') →
        (ps = "" ∨ ∃ p, ps = ":" ++ p) →
        hostKeyOf url = pyLower host) ∧
    (∀ (url1 url2 host1 host2 ps1 ps2 : String),
        urlNetloc url1 = host1 ++ ps1 →
        (∀ ch ∈ host1.toList, ¬ ch = ':') →
        (ps1 = "" ∨ ∃ p, ps1 = ":" ++ p) →
        urlNetloc url2 = host2 ++ ps2 →
        (∀ ch ∈ host2.toList, ¬ ch = ':') →
        (ps2 = "" ∨ ∃ p, ps2 = ":" ++ p) →
        pyLower host1 = pyLower host2 →
        hostKeyOf url1 = hostKeyOf url2) := by
  refine ⟨hostKey_of_netloc, ?_⟩
  intro url1 url2 host1 host2 ps1 ps2 h1 h2 h3 h4 h5 h6 hlow
  rw [hostKey_of_netloc url1 host1 ps1 h1 h2 h3,
    hostKey_of_netloc url2 host2 ps2 h4 h5 h6, hlow]

/-- Witness for claim C9: a mixed-case authority with a port and a lowercase
one without a port map to the same key, the lowercased portless host. -/
theorem hostkey_lowercase_portless_check :
    hostKeyOf "https://WWW.Example.COM:8443/path?q=1" = pyLower "WWW.Example.COM" ∧
    hostKeyOf "https://WWW.Example.COM:8443/path?q=1" =
      hostKeyOf "http://www.example.com/other" ∧
    hostKeyOf "https://WWW.Example.COM:8443/path?q=1" = "www.example.com" := by
  refine ⟨hostkey_lowercase_portless.1 "https://WWW.Example.COM:8443/path?q=1"
      "WWW.Example.COM" ":8443" (by decide) (by decide) (Or.inr ⟨"8443", rfl⟩),
    hostkey_lowercase_portless.2 "https://WWW.Example.COM:8443/path?q=1"
      "http://www.example.com/other" "WWW.Example.COM" "www.example.com" ":8443" ""
      (by decide) (by decide) (Or.inr ⟨"8443", rfl⟩)
      (by decide) (by decide) (Or.inl rfl) (by decide), by decide⟩

end FunctionApp
